import Mathlib

/-!
# Verification of the AnalyticsDashboard multi-repository analytics code

This file gives a shallow embedding, in Lean, of the parts of the
AnalyticsDashboard repository that the verified properties are about:

* `get_multi_repo_analytics` and `create_repository_summary_table`
  from `app.py` (multi-repository GitHub PR aggregation);
* `_extract_repo_from_pr_url`, `_extract_pr_links` (link classification),
  `_resolve_repository_name`, `_try_github_resolution` and
  `_get_resolved_repositories` from `azuredevops_analytics.py`.

Conventions of the embedding:

* Python strings are Lean `String`s; the Python operations `in`,
  `startswith`, `split`, `replace` and slicing are modelled by
  executable functions on `List Char` defined below, with the same
  semantics for the non-empty separators used by the code.
* The two `re.search` calls are modelled by dedicated matchers that
  scan for the first position where the (deterministic, backtracking-free
  for these patterns) anchored match succeeds.
* Python numbers: the PR counters are `Nat`; the average metrics, which
  are floats in the source, are modelled as exact rationals `ℚ`.
* Network calls (`get_pull_request_analytics`, the Azure DevOps
  repository API) are oracles passed as function arguments; `none`
  models a failed call (non-success status or a raised exception,
  both of which the source treats identically by skipping the item).
* `sorted(..., key=..., reverse=True)` is Python's stable sort in
  descending key order; it is modelled by `List.insertionSort` with the
  non-strict "later or equal" relation, which is stable and produces
  exactly the descending stable order.
-/

namespace AnalyticsDashboard

/-! ## String primitives (Python `in`, `startswith`, `split`, `replace`, slicing) -/

/-- Python `pat in s` on character lists: some suffix of `s` starts with `pat`. -/
def containsSub (pat s : List Char) : Bool :=
  s.tails.any (fun t => pat.isPrefixOf t)

/-- Python `pat in s` on strings. -/
def strContains (s pat : String) : Bool :=
  containsSub pat.data s.data

/-- Python `s.startswith(pre)`. -/
def strStartsWith (s pre : String) : Bool :=
  pre.data.isPrefixOf s.data

/-- Python `s.lower()` (ASCII case folding suffices for the inputs involved). -/
def lowerStr (s : String) : String :=
  String.mk (s.data.map Char.toLower)

/-- Python `s[:n]` on strings. -/
def takeChars (n : Nat) (s : String) : String :=
  String.mk (s.data.take n)

/-- Split off everything before the first occurrence of `sep`:
`splitFirst sep l = some (pre, post)` when `l = pre ++ sep ++ post` and `pre`
contains no occurrence of `sep`; `none` when `sep` does not occur in `l`. -/
def splitFirst (sep : List Char) : List Char → Option (List Char × List Char)
  | [] => none
  | c :: cs =>
    if sep.isPrefixOf (c :: cs) then some ([], (c :: cs).drop sep.length)
    else
      match splitFirst sep cs with
      | some (pre, post) => some (c :: pre, post)
      | none => none

/-- Fuelled worker for `Python str.split(sep)` (non-empty `sep`);
the fuel `l.length` always suffices because each step removes at least
one character. -/
def splitOnFuel (sep : List Char) : Nat → List Char → List (List Char)
  | 0, l => [l]
  | fuel + 1, l =>
    match splitFirst sep l with
    | none => [l]
    | some (pre, post) => pre :: splitOnFuel sep fuel post

/-- Python `s.split(sep)` for a non-empty separator. -/
def pySplit (s sep : String) : List String :=
  (splitOnFuel sep.data s.data.length s.data).map String.mk

/-- Python `s.replace(old, new)` for a non-empty `old`
(equals `new.join(s.split(old))`). -/
def pyReplace (s old new : String) : String :=
  String.intercalate new (pySplit s old)

/-- Lower-case hexadecimal digit, the character class `[a-f0-9]`. -/
def isLowerHexDigit (c : Char) : Bool :=
  c.isDigit || (decide ('a' ≤ c) && decide (c ≤ 'f'))

/-! ## The two `re.search` patterns of `_extract_repo_from_pr_url`

For the concrete patterns used by the source the regex engine is
deterministic: a group `([^x]+)` followed by the literal `x...` must be
the maximal run of non-`x` characters, so no backtracking can occur.
The searcher tries the anchored match at every start position, exactly
as `re.search` does. -/

/-- Anchored match of `([^%]+)%2f(G+)` where `G` is the character class
`p2`; returns the two captured groups. -/
def matchIdSep (p2 : Char → Bool) (cs : List Char) : Option (List Char × List Char) :=
  let g1 := cs.takeWhile (fun c => c != '%')
  match cs.dropWhile (fun c => c != '%') with
  | '%' :: '2' :: 'f' :: rest =>
    let g2 := rest.takeWhile p2
    if g1.isEmpty || g2.isEmpty then none else some (g1, g2)
  | _ => none

/-- Try an anchored matcher at every start position (the semantics of
`re.search`). -/
def searchAux {α : Type} (m : List Char → Option α) : List Char → Option α
  | [] => m []
  | c :: cs =>
    match m (c :: cs) with
    | some r => some r
    | none => searchAux m cs

/-- Anchored match of a literal followed by a sub-matcher. -/
def anchoredLit {α : Type} (lit : List Char) (m : List Char → Option α)
    (cs : List Char) : Option α :=
  if lit.isPrefixOf cs then m (cs.drop lit.length) else none

/-- Model of `re.search(r'vstfs:///GitHub/PullRequest/([^%]+)%2f(\d+)', url)`. -/
def vstfsPRSearch (url : String) : Option (String × String) :=
  (searchAux (anchoredLit "vstfs:///GitHub/PullRequest/".data (matchIdSep Char.isDigit))
      url.data).map
    (fun g => (String.mk g.1, String.mk g.2))

/-- Model of `re.search(r'vstfs:///GitHub/Commit/([^%]+)%2f([a-f0-9]+)', url)`. -/
def vstfsCommitSearch (url : String) : Option (String × String) :=
  (searchAux (anchoredLit "vstfs:///GitHub/Commit/".data (matchIdSep isLowerHexDigit))
      url.data).map
    (fun g => (String.mk g.1, String.mk g.2))

/-- Anchored match of `([^/]+)/([^/]+)/pull/(\d+)` (what follows the
literal `github.com/` in the GitHub PR pattern). -/
def matchGithubPull (cs : List Char) : Option (String × String × String) :=
  let g1 := cs.takeWhile (fun c => c != '/')
  if g1.isEmpty then none
  else
    match cs.dropWhile (fun c => c != '/') with
    | '/' :: rest1 =>
      let g2 := rest1.takeWhile (fun c => c != '/')
      if g2.isEmpty then none
      else
        let rest2 := rest1.dropWhile (fun c => c != '/')
        if "/pull/".data.isPrefixOf rest2 then
          let g3 := (rest2.drop 6).takeWhile Char.isDigit
          if g3.isEmpty then none
          else some (String.mk g1, String.mk g2, String.mk g3)
        else none
    | _ => none

/-- Model of `re.search(r'github\.com/([^/]+)/([^/]+)/pull/(\d+)', url)`. -/
def githubPullSearch (url : String) : Option (String × String × String) :=
  searchAux (anchoredLit "github.com/".data matchGithubPull) url.data

/-- Anchored match of `[:/]([^/]+)/([^/.]+)` (what follows the literal
`github.com` in the remote-URL pattern of `_resolve_repository_name`). -/
def matchGithubRemote (cs : List Char) : Option (String × String) :=
  match cs with
  | c :: rest =>
    if c == ':' || c == '/' then
      let g1 := rest.takeWhile (fun c => c != '/')
      if g1.isEmpty then none
      else
        match rest.dropWhile (fun c => c != '/') with
        | '/' :: rest2 =>
          let g2 := rest2.takeWhile (fun c => c != '/' && c != '.')
          if g2.isEmpty then none else some (String.mk g1, String.mk g2)
        | _ => none
    else none
  | [] => none

/-- Model of `re.search(r'github\.com[:/]([^/]+)/([^/.]+)', remote_url)`. -/
def githubRemoteSearch (url : String) : Option (String × String) :=
  searchAux (anchoredLit "github.com".data matchGithubRemote) url.data

/-! ## `_extract_repo_from_pr_url` (azuredevops_analytics.py) -/

/-- The record returned by `_extract_repo_from_pr_url`; `pr_number` is the
reference id of the link (a PR number, `commit-…`, or `"unknown"`). -/
structure RepoInfo where
  repository : String
  pr_number : String
  platform : String
  full_repo_path : String
  repository_id : Option String
  commit_id : Option String
deriving DecidableEq

/-- The `default_result` dictionary of `_extract_repo_from_pr_url`. -/
def defaultRepoInfo (url : String) : RepoInfo :=
  { repository := url
    pr_number := "unknown"
    platform := "unknown"
    full_repo_path := url
    repository_id := none
    commit_id := none }

/-- The `'_git/' in url and 'pullrequest/' in url` branch. -/
def gitPrBranch (url : String) : RepoInfo :=
  let parts := pySplit url "/_git/"
  if parts.length > 1 then
    let repo_and_pr := parts.getD 1 ""
    let prMatch := pySplit repo_and_pr "/pullrequest/"
    let repo_part := prMatch.getD 0 ""
    let pr_number :=
      if prMatch.length > 1 then (pySplit (prMatch.getD 1 "") "/").getD 0 "" else "unknown"
    { repository := repo_part
      pr_number := pr_number
      platform := "Azure DevOps"
      full_repo_path := repo_part
      repository_id := some repo_part
      commit_id := none }
  else defaultRepoInfo url

/-- The `'repositories/' in url and 'pullRequests/' in url` branch. -/
def apiPrBranch (url : String) : RepoInfo :=
  let parts := pySplit url "/repositories/"
  if parts.length > 1 then
    let repo_and_pr := parts.getD 1 ""
    let prMatch := pySplit repo_and_pr "/pullRequests/"
    let repo_part := prMatch.getD 0 ""
    let pr_number :=
      if prMatch.length > 1 then (pySplit (prMatch.getD 1 "") "/").getD 0 "" else "unknown"
    { repository := repo_part
      pr_number := pr_number
      platform := "Azure DevOps"
      full_repo_path := repo_part
      repository_id := some repo_part
      commit_id := none }
  else defaultRepoInfo url

/-- Model of `_extract_repo_from_pr_url`.  The chain of `if`/`elif` guards and the
inner `if <match>` tests mirror the source; when a guard fires but its
sub-pattern fails, control falls to the final `return default_result`. -/
def extractRepoFromPrUrl (url : String) : RepoInfo :=
  if strStartsWith url "vstfs:///GitHub/PullRequest/" then
    match vstfsPRSearch url with
    | some (repo_id, pr_number) =>
      { repository := "GitHub-" ++ takeChars 8 repo_id
        pr_number := pr_number
        platform := "GitHub"
        full_repo_path := "GitHub/" ++ repo_id
        repository_id := some repo_id
        commit_id := none }
    | none => defaultRepoInfo url
  else if strStartsWith url "vstfs:///GitHub/Commit/" then
    match vstfsCommitSearch url with
    | some (repo_id, commit_hash) =>
      { repository := "GitHub-" ++ takeChars 8 repo_id
        pr_number := "commit-" ++ takeChars 8 commit_hash
        platform := "GitHub"
        full_repo_path := "GitHub/" ++ repo_id
        repository_id := some repo_id
        commit_id := some commit_hash }
    | none => defaultRepoInfo url
  else if strContains (lowerStr url) "github.com" then
    match githubPullSearch url with
    | some (owner, repo, pr_number) =>
      { repository := repo
        pr_number := pr_number
        platform := "GitHub"
        full_repo_path := owner ++ "/" ++ repo
        repository_id := none
        commit_id := none }
    | none => defaultRepoInfo url
  else if strContains url "_git/" && strContains url "pullrequest/" then
    gitPrBranch url
  else if strContains url "repositories/" && strContains url "pullRequests/" then
    apiPrBranch url
  else defaultRepoInfo url

/-- The `is_pr_link` classification of `_extract_pr_links`: `relTypeRaw` is
the raw relation type (`relation.get('rel', '')`, lower-cased by the code)
and `url` the relation URL. -/
def isPrLink (relTypeRaw url : String) : Bool :=
  let rel_type := lowerStr relTypeRaw
  let urlLower := lowerStr url
  rel_type == "artifactlink" ||
  strContains rel_type "pullrequest" ||
  (strContains rel_type "development" && strContains rel_type "work") ||
  (strContains urlLower "github.com" && strContains url "pull/") ||
  (strContains urlLower "_git/" && strContains urlLower "pullrequest") ||
  (strContains urlLower "repositories/" && strContains urlLower "pullrequests") ||
  (rel_type == "hyperlink" &&
    ((strContains urlLower "github.com" && strContains url "pull/") ||
     strContains urlLower "pull/" ||
     strContains urlLower "pr/" ||
     strContains urlLower "pullrequest"))

/-! ## Repository resolution (azuredevops_analytics.py) -/

/-- The dictionary returned by `_resolve_repository_name` /
`_try_github_resolution`. -/
structure RepoNameInfo where
  github_repo : String
  repo_name : String
  owner : String
  repo : String
  remote_url : String
deriving DecidableEq

/-- The `known_repos` static mapping of `_try_github_resolution`
(insertion order preserved, as Python dict iteration is ordered). -/
def knownRepos : List (String × RepoNameInfo) :=
  [("206cdeed-ccde-4df1-a203-092a2522662f",
    { github_repo := "tr/cs-prof-cloud_ultratax-api-services"
      repo_name := "cs-prof-cloud_ultratax-api-services"
      owner := "tr"
      repo := "cs-prof-cloud_ultratax-api-services"
      remote_url := "https://github.com/tr/cs-prof-cloud_ultratax-api-services" }),
   ("0d836de7-dfee-46c2-a340-a39d84189402",
    { github_repo := "tr/tax-professional-services"
      repo_name := "tax-professional-services"
      owner := "tr"
      repo := "tax-professional-services"
      remote_url := "https://github.com/tr/tax-professional-services" }),
   ("2c2726b0-50bd-4425-89ad-a1361ffa3467",
    { github_repo := "tr/tax-automation-engine"
      repo_name := "tax-automation-engine"
      owner := "tr"
      repo := "tax-automation-engine"
      remote_url := "https://github.com/tr/tax-automation-engine" })]

/-- Model of `_try_github_resolution`: exact hit in `known_repos`, then partial hit
(`full_id.startswith(repository_id)`, first in insertion order), then the
pattern-based guess `tr/repo-<first 8 chars>`.  The `except` branch of the
source is unreachable (no operation here can raise), so the function is
total. -/
def tryGithubResolution (repository_id : String) : RepoNameInfo :=
  match knownRepos.lookup repository_id with
  | some info => info
  | none =>
    match knownRepos.find? (fun p => strStartsWith p.1 repository_id) with
    | some p => p.2
    | none =>
      let short_id := takeChars 8 repository_id
      { github_repo := "tr/repo-" ++ short_id
        repo_name := "repo-" ++ short_id
        owner := "tr"
        repo := "repo-" ++ short_id
        remote_url := "https://github.com/tr/repo-" ++ short_id }

/-- Payload of a successful Azure DevOps repository API call
(`name` and `remoteUrl` of the response). -/
structure AzRepoData where
  name : String
  remoteUrl : String
deriving DecidableEq

/-- Model of `_resolve_repository_name`.  Here `hasCreds` models
`self.pat_token and self.organization`; `api` is the repository API
oracle, `none` standing for a non-200 response or a raised exception
(both of which the source sends to `_try_github_resolution`). -/
def resolveRepositoryName (hasCreds : Bool) (api : String → Option AzRepoData)
    (repository_id : String) : Option RepoNameInfo :=
  if !hasCreds then none
  else
    match api repository_id with
    | some rd =>
      if strContains rd.remoteUrl "github.com" then
        match githubRemoteSearch rd.remoteUrl with
        | some (owner, repo) =>
          some
            { github_repo := owner ++ "/" ++ repo
              repo_name := rd.name
              owner := owner
              repo := repo
              remote_url := rd.remoteUrl }
        | none =>
          some
            { github_repo := "azuredevops/" ++ rd.name
              repo_name := rd.name
              owner := "azuredevops"
              repo := rd.name
              remote_url := rd.remoteUrl }
      else
        some
          { github_repo := "azuredevops/" ++ rd.name
            repo_name := rd.name
            owner := "azuredevops"
            repo := rd.name
            remote_url := rd.remoteUrl }
    | none => some (tryGithubResolution repository_id)

/-- An entry of the list built by `_get_resolved_repositories`. -/
structure ResolvedRepository where
  repository_id : String
  github_repo : String
  display_name : String
  owner : String
  repo : String
  remote_url : String
  pr_count : Nat
  full_path : String
  resolved : Bool
deriving DecidableEq

/-- The body of the `_get_resolved_repositories` loop for one
`repo_path` that starts with `GitHub/`. -/
def resolveEntry (hasCreds : Bool) (api : String → Option AzRepoData)
    (breakdown : List (String × Nat)) (repo_path : String) : ResolvedRepository :=
  let repo_id := pyReplace repo_path "GitHub/" ""
  let pr_count := (breakdown.lookup ("GitHub-" ++ takeChars 8 repo_id)).getD 0
  match resolveRepositoryName hasCreds api repo_id with
  | some info =>
    { repository_id := repo_id
      github_repo := info.github_repo
      display_name := info.repo_name
      owner := info.owner
      repo := info.repo
      remote_url := info.remote_url
      pr_count := pr_count
      full_path := repo_path
      resolved := true }
  | none =>
    { repository_id := repo_id
      github_repo := "owner/repo-" ++ takeChars 8 repo_id
      display_name := "GitHub-" ++ takeChars 8 repo_id
      owner := "owner"
      repo := "repo-" ++ takeChars 8 repo_id
      remote_url := ""
      pr_count := pr_count
      full_path := repo_path
      resolved := false }

/-- Model of `_get_resolved_repositories`: one output entry per input path that
starts with `GitHub/`, all other paths skipped. -/
def getResolvedRepositories (hasCreds : Bool) (api : String → Option AzRepoData)
    (involved : List String) (breakdown : List (String × Nat)) :
    List ResolvedRepository :=
  involved.filterMap (fun repo_path =>
    if strStartsWith repo_path "GitHub/" then
      some (resolveEntry hasCreds api breakdown repo_path)
    else none)

/-! ## `get_multi_repo_analytics` (app.py) -/

/-- One entry of a repository's `recent_prs` list; `number` stands for the
payload fields the aggregation copies verbatim (`pr.copy()`). -/
structure PRRec where
  created_at : String
  number : Nat
deriving DecidableEq

/-- A recent-PR entry after the aggregation has tagged it with
`pr_copy['repository'] = repo`. -/
structure TaggedPR where
  created_at : String
  number : Nat
  repository : String
deriving DecidableEq

/-- The per-repository analytics payload (`repo_result['data']` of a
successful `get_pull_request_analytics` call). -/
structure RepoData where
  total_prs : Nat
  open_prs : Nat
  closed_prs : Nat
  merged_prs : Nat
  average_additions : ℚ
  average_deletions : ℚ
  average_commits : ℚ
  average_changed_files : ℚ
  prs_by_author : List (String × Nat)
  prs_by_day : List (String × Nat)
  recent_prs : List PRRec
deriving DecidableEq

/-- The per-repository stats stored in `combined_data['repositories']`. -/
structure RepoStats where
  total_prs : Nat
  open_prs : Nat
  closed_prs : Nat
  merged_prs : Nat
deriving DecidableEq

/-- The `combined_data` dictionary; dictionaries are association lists in Python
insertion order. -/
structure CombinedData where
  total_prs : Nat
  open_prs : Nat
  closed_prs : Nat
  merged_prs : Nat
  average_additions : ℚ
  average_deletions : ℚ
  average_commits : ℚ
  average_changed_files : ℚ
  prs_by_author : List (String × Nat)
  prs_by_day : List (String × Nat)
  recent_prs : List TaggedPR
  repositories : List (String × RepoStats)
deriving DecidableEq

/-- Python `d[k] = d.get(k, 0) + c` on an insertion-ordered dict:
update in place if present, else append. -/
def bumpCount (m : List (String × Nat)) (k : String) (c : Nat) : List (String × Nat) :=
  match m with
  | [] => [(k, c)]
  | (k0, c0) :: rest =>
    if k0 == k then (k0, c0 + c) :: rest else (k0, c0) :: bumpCount rest k c

/-- The `for author, count in ....items()` merge loops. -/
def mergeCounts (m adds : List (String × Nat)) : List (String × Nat) :=
  adds.foldl (fun acc kv => bumpCount acc kv.1 kv.2) m

/-- Python `d[k] = v` on an insertion-ordered dict. -/
def setStats (m : List (String × RepoStats)) (k : String) (v : RepoStats) :
    List (String × RepoStats) :=
  match m with
  | [] => [(k, v)]
  | (k0, v0) :: rest =>
    if k0 == k then (k0, v) :: rest else (k0, v0) :: setStats rest k v

/-- Tagging of a recent PR with its origin repository. -/
def tagPR (repo : String) (p : PRRec) : TaggedPR :=
  { created_at := p.created_at, number := p.number, repository := repo }

/-- The mutable state of the `for repo in repos` loop:
`combined_data` plus the four weighted accumulators and
`total_prs_for_avg`. -/
structure AggState where
  combined : CombinedData
  total_additions : ℚ
  total_deletions : ℚ
  total_commits : ℚ
  total_changed_files : ℚ
  total_prs_for_avg : Nat

/-- The success-branch body of the loop (`repo_result['status'] == 'success'`). -/
def applyOk (st : AggState) (e : String × RepoData) : AggState :=
  let repo := e.1
  let d := e.2
  let c := st.combined
  let c :=
    { c with
      total_prs := c.total_prs + d.total_prs
      open_prs := c.open_prs + d.open_prs
      closed_prs := c.closed_prs + d.closed_prs
      merged_prs := c.merged_prs + d.merged_prs
      prs_by_author := mergeCounts c.prs_by_author d.prs_by_author
      prs_by_day := mergeCounts c.prs_by_day d.prs_by_day
      recent_prs := c.recent_prs ++ (d.recent_prs.take 5).map (tagPR repo)
      repositories :=
        setStats c.repositories repo
          { total_prs := d.total_prs
            open_prs := d.open_prs
            closed_prs := d.closed_prs
            merged_prs := d.merged_prs } }
  if 0 < d.total_prs then
    { combined := c
      total_additions := st.total_additions + d.average_additions * d.total_prs
      total_deletions := st.total_deletions + d.average_deletions * d.total_prs
      total_commits := st.total_commits + d.average_commits * d.total_prs
      total_changed_files := st.total_changed_files + d.average_changed_files * d.total_prs
      total_prs_for_avg := st.total_prs_for_avg + d.total_prs }
  else { st with combined := c }

/-- One iteration of the `for repo in repos` loop.  `fetch` is the oracle
for `get_pull_request_analytics`: `none` models a non-success status or a
raised exception, both of which leave the state unchanged (`continue`). -/
def processRepo (fetch : String → Option RepoData) (st : AggState) (repo : String) :
    AggState :=
  if (pySplit repo "/").length ≠ 2 then st
  else
    match fetch repo with
    | none => st
    | some d => applyOk st (repo, d)

/-- The zero-initialised `combined_data`. -/
def initCombined : CombinedData :=
  { total_prs := 0
    open_prs := 0
    closed_prs := 0
    merged_prs := 0
    average_additions := 0
    average_deletions := 0
    average_commits := 0
    average_changed_files := 0
    prs_by_author := []
    prs_by_day := []
    recent_prs := []
    repositories := [] }

/-- Initial loop state. -/
def initAggState : AggState :=
  { combined := initCombined
    total_additions := 0
    total_deletions := 0
    total_commits := 0
    total_changed_files := 0
    total_prs_for_avg := 0 }

/-- Descending order on `created_at` (Python
`sorted(..., key=lambda x: x.get('created_at', ''), reverse=True)`
keeps `a` before `b` exactly when `b`'s key is `≤` `a`'s key;
Python compares strings lexicographically by code point, which is the
lexicographic order on the character lists). -/
def prLater (a b : TaggedPR) : Prop :=
  (b.created_at.data : List Char) ≤ a.created_at.data

instance : DecidableRel prLater :=
  fun a b => inferInstanceAs (Decidable ((b.created_at.data : List Char) ≤ a.created_at.data))

instance : IsTotal TaggedPR prLater :=
  ⟨fun a b => le_total b.created_at.data a.created_at.data⟩

instance : IsTrans TaggedPR prLater :=
  ⟨fun _ _ _ h1 h2 => le_trans h2 h1⟩

/-- The post-loop processing of `get_multi_repo_analytics`: compute the
weighted averages when `total_prs_for_avg > 0`, then stably sort
`recent_prs` by `created_at` descending and truncate to 20. -/
def finishAgg (st : AggState) : CombinedData :=
  let c := st.combined
  let c :=
    if 0 < st.total_prs_for_avg then
      { c with
        average_additions := st.total_additions / st.total_prs_for_avg
        average_deletions := st.total_deletions / st.total_prs_for_avg
        average_commits := st.total_commits / st.total_prs_for_avg
        average_changed_files := st.total_changed_files / st.total_prs_for_avg }
    else c
  { c with recent_prs := (List.insertionSort prLater c.recent_prs).take 20 }

/-- Model of `get_multi_repo_analytics` (the `combined_data` it builds): the
`for repo in repos` loop followed by the post-processing. -/
def getMultiRepoAnalytics (fetch : String → Option RepoData) (repos : List String) :
    CombinedData :=
  finishAgg (repos.foldl (processRepo fetch) initAggState)

/-- The value returned by `get_multi_repo_analytics`:
`{'status': 'success', 'data': combined_data}` — the status is the
literal `'success'` on every control path of the function. -/
structure AnalyticsResult where
  status : String
  data : CombinedData
deriving DecidableEq

/-- Model of `get_multi_repo_analytics` including its `status` wrapper. -/
def getMultiRepoResult (fetch : String → Option RepoData) (repos : List String) :
    AnalyticsResult :=
  { status := "success", data := getMultiRepoAnalytics fetch repos }

/-! ## `create_repository_summary_table` (app.py) -/

/-- Round `10 * q` to the nearest integer, ties to even — the rounding of
Python's `f"{x:.1f}"` (floats are modelled as exact rationals). -/
def roundHalfEvenTenths (q : ℚ) : ℤ :=
  let x := 10 * q
  let f := ⌊x⌋
  if x - f < 1 / 2 then f
  else if 1 / 2 < x - f then f + 1
  else if f % 2 = 0 then f else f + 1

/-- Python `f"{q:.1f}"` for a non-negative rational. -/
def fmtTenths (q : ℚ) : String :=
  let n := (roundHalfEvenTenths q).toNat
  toString (n / 10) ++ "." ++ toString (n % 10)

/-- Python `f"{(merged / total * 100):.1f}%" if total > 0 else "0%"`. -/
def mergeRateStr (merged total : Nat) : String :=
  if 0 < total then fmtTenths ((merged : ℚ) / total * 100) ++ "%" else "0%"

/-- Python `f'<strong>{s}</strong>'`. -/
def strong (s : String) : String :=
  "<strong>" ++ s ++ "</strong>"

/-- Python `repositories_data.get(repo, {})` with the `.get(…, 0)` defaults. -/
def lookupStats (repositories_data : List (String × RepoStats)) (repo : String) :
    RepoStats :=
  (repositories_data.lookup repo).getD
    { total_prs := 0, open_prs := 0, closed_prs := 0, merged_prs := 0 }

/-- One per-repository row of the summary table. -/
def repoRow (repositories_data : List (String × RepoStats)) (repo : String) :
    List String :=
  let rd := lookupStats repositories_data repo
  [repo, toString rd.total_prs, toString rd.open_prs, toString rd.closed_prs,
   toString rd.merged_prs, mergeRateStr rd.merged_prs rd.total_prs]

/-- The trailing TOTAL row. -/
def totalRow (data : CombinedData) : List String :=
  [strong "TOTAL", strong (toString data.total_prs), strong (toString data.open_prs),
   strong (toString data.closed_prs), strong (toString data.merged_prs),
   strong (mergeRateStr data.merged_prs data.total_prs)]

/-- The summary table value. -/
structure SummaryTable where
  type : String
  headers : List String
  rows : List (List String)
deriving DecidableEq

/-- Model of `create_repository_summary_table`. -/
def createRepositorySummaryTable (data : CombinedData) (repos : List String) :
    SummaryTable :=
  { type := "table"
    headers := ["Repository", "Total PRs", "Open", "Closed", "Merged", "Merge Rate"]
    rows := repos.map (repoRow data.repositories) ++ [totalRow data] }

/-! ## Closed forms of the aggregation loop -/

/-- The loop iterations that contribute to the aggregation: the entries of
`repos` that split into exactly two `/`-separated segments and whose fetch
succeeds, paired with the fetched data, in input order. -/
def okEntries (fetch : String → Option RepoData) (repos : List String) :
    List (String × RepoData) :=
  repos.filterMap (fun r =>
    if (pySplit r "/").length = 2 then (fetch r).map (fun d => (r, d)) else none)

/-- The fetched payloads with `total_prs > 0` (the only ones that feed the
weighted averages). -/
def contribOf (l : List (String × RepoData)) : List RepoData :=
  (l.map Prod.snd).filter (fun d => decide (0 < d.total_prs))

/-- The contributing payloads of a run. -/
def contributingData (fetch : String → Option RepoData) (repos : List String) :
    List RepoData :=
  contribOf (okEntries fetch repos)

/-- Python `sum(f(repo) * repo.total_prs)` over a list of payloads. -/
def weightedSum (f : RepoData → ℚ) (l : List RepoData) : ℚ :=
  (l.map (fun d => f d * d.total_prs)).sum

/-- Python `sum(repo.total_prs)` over a list of payloads. -/
def totalWeight (l : List RepoData) : ℕ :=
  (l.map (fun d => d.total_prs)).sum

/-- The pool the `recent_prs` list is drawn from: at most the first five
recent PRs of every contributing repository, each tagged with its origin,
in input order. -/
def recentPool (fetch : String → Option RepoData) (repos : List String) :
    List TaggedPR :=
  (okEntries fetch repos).flatMap (fun e => (e.2.recent_prs.take 5).map (tagPR e.1))

/-- Sum of a per-repository stat over the stored breakdown. -/
def statsSum (f : RepoStats → ℕ) (m : List (String × RepoStats)) : ℕ :=
  (m.map (fun e => f e.2)).sum

theorem applyOk_combined (st : AggState) (e : String × RepoData) :
    (applyOk st e).combined =
      { st.combined with
        total_prs := st.combined.total_prs + e.2.total_prs
        open_prs := st.combined.open_prs + e.2.open_prs
        closed_prs := st.combined.closed_prs + e.2.closed_prs
        merged_prs := st.combined.merged_prs + e.2.merged_prs
        prs_by_author := mergeCounts st.combined.prs_by_author e.2.prs_by_author
        prs_by_day := mergeCounts st.combined.prs_by_day e.2.prs_by_day
        recent_prs := st.combined.recent_prs ++ (e.2.recent_prs.take 5).map (tagPR e.1)
        repositories :=
          setStats st.combined.repositories e.1
            { total_prs := e.2.total_prs
              open_prs := e.2.open_prs
              closed_prs := e.2.closed_prs
              merged_prs := e.2.merged_prs } } := by
  by_cases h : 0 < e.2.total_prs <;> simp [applyOk, h]

theorem applyOk_acc (st : AggState) (e : String × RepoData) :
    (applyOk st e).total_additions =
        (if 0 < e.2.total_prs then
          st.total_additions + e.2.average_additions * e.2.total_prs
        else st.total_additions) ∧
      (applyOk st e).total_deletions =
        (if 0 < e.2.total_prs then
          st.total_deletions + e.2.average_deletions * e.2.total_prs
        else st.total_deletions) ∧
      (applyOk st e).total_commits =
        (if 0 < e.2.total_prs then
          st.total_commits + e.2.average_commits * e.2.total_prs
        else st.total_commits) ∧
      (applyOk st e).total_changed_files =
        (if 0 < e.2.total_prs then
          st.total_changed_files + e.2.average_changed_files * e.2.total_prs
        else st.total_changed_files) ∧
      (applyOk st e).total_prs_for_avg =
        (if 0 < e.2.total_prs then st.total_prs_for_avg + e.2.total_prs
        else st.total_prs_for_avg) := by
  unfold applyOk
  by_cases h : 0 < e.2.total_prs <;> simp [h]

/-- The loop over `repos` is the loop over its contributing entries. -/
theorem foldl_processRepo_eq (fetch : String → Option RepoData)
    (repos : List String) (st : AggState) :
    repos.foldl (processRepo fetch) st = (okEntries fetch repos).foldl applyOk st := by
  induction repos generalizing st with
  | nil => rfl
  | cons r rs ih =>
    by_cases hs : (pySplit r "/").length = 2
    · cases hf : fetch r with
      | none =>
        have h1 : processRepo fetch st r = st := by simp [processRepo, hs, hf]
        have h2 : okEntries fetch (r :: rs) = okEntries fetch rs := by
          simp [okEntries, List.filterMap_cons, hs, hf]
        simp [List.foldl_cons, h1, h2, ih]
      | some d =>
        have h1 : processRepo fetch st r = applyOk st (r, d) := by
          simp [processRepo, hs, hf]
        have h2 : okEntries fetch (r :: rs) = (r, d) :: okEntries fetch rs := by
          simp [okEntries, List.filterMap_cons, hs, hf]
        simp [List.foldl_cons, h1, h2, ih]
    · have h1 : processRepo fetch st r = st := by simp [processRepo, hs]
      have h2 : okEntries fetch (r :: rs) = okEntries fetch rs := by
        simp [okEntries, List.filterMap_cons, hs]
      simp [List.foldl_cons, h1, h2, ih]

theorem foldl_applyOk_counts (l : List (String × RepoData)) :
    ∀ st : AggState,
      (l.foldl applyOk st).combined.total_prs =
          st.combined.total_prs + (l.map (fun e => e.2.total_prs)).sum ∧
        (l.foldl applyOk st).combined.open_prs =
          st.combined.open_prs + (l.map (fun e => e.2.open_prs)).sum ∧
        (l.foldl applyOk st).combined.closed_prs =
          st.combined.closed_prs + (l.map (fun e => e.2.closed_prs)).sum ∧
        (l.foldl applyOk st).combined.merged_prs =
          st.combined.merged_prs + (l.map (fun e => e.2.merged_prs)).sum := by
  induction l with
  | nil => intro st; simp
  | cons e es ih =>
    intro st
    obtain ⟨h1, h2, h3, h4⟩ := ih (applyOk st e)
    refine ⟨?_, ?_, ?_, ?_⟩ <;>
      simp [List.foldl_cons, h1, h2, h3, h4, applyOk_combined] <;> omega

theorem foldl_applyOk_avg_fields (l : List (String × RepoData)) :
    ∀ st : AggState,
      (l.foldl applyOk st).combined.average_additions = st.combined.average_additions ∧
        (l.foldl applyOk st).combined.average_deletions = st.combined.average_deletions ∧
        (l.foldl applyOk st).combined.average_commits = st.combined.average_commits ∧
        (l.foldl applyOk st).combined.average_changed_files =
          st.combined.average_changed_files := by
  induction l with
  | nil => intro st; simp
  | cons e es ih =>
    intro st
    obtain ⟨h1, h2, h3, h4⟩ := ih (applyOk st e)
    refine ⟨?_, ?_, ?_, ?_⟩ <;> simp [List.foldl_cons, h1, h2, h3, h4, applyOk_combined]

theorem foldl_applyOk_acc (l : List (String × RepoData)) :
    ∀ st : AggState,
      (l.foldl applyOk st).total_additions =
          st.total_additions + weightedSum (fun d => d.average_additions) (contribOf l) ∧
        (l.foldl applyOk st).total_deletions =
          st.total_deletions + weightedSum (fun d => d.average_deletions) (contribOf l) ∧
        (l.foldl applyOk st).total_commits =
          st.total_commits + weightedSum (fun d => d.average_commits) (contribOf l) ∧
        (l.foldl applyOk st).total_changed_files =
          st.total_changed_files +
            weightedSum (fun d => d.average_changed_files) (contribOf l) ∧
        (l.foldl applyOk st).total_prs_for_avg =
          st.total_prs_for_avg + totalWeight (contribOf l) := by
  induction l with
  | nil => intro st; simp [contribOf, weightedSum, totalWeight]
  | cons e es ih =>
    intro st
    obtain ⟨h1, h2, h3, h4, h5⟩ := ih (applyOk st e)
    obtain ⟨a1, a2, a3, a4, a5⟩ := applyOk_acc st e
    by_cases hp : 0 < e.2.total_prs
    · have hc : contribOf (e :: es) = e.2 :: contribOf es := by
        simp [contribOf, List.filter_cons, hp]
      refine ⟨?_, ?_, ?_, ?_, ?_⟩ <;>
        simp [List.foldl_cons, h1, h2, h3, h4, h5, a1, a2, a3, a4, a5, hp, hc,
          weightedSum, totalWeight] <;> ring
    · have hc : contribOf (e :: es) = contribOf es := by
        simp [contribOf, List.filter_cons, hp]
      refine ⟨?_, ?_, ?_, ?_, ?_⟩ <;>
        simp [List.foldl_cons, h1, h2, h3, h4, h5, a1, a2, a3, a4, a5, hp, hc]

theorem foldl_applyOk_recent (l : List (String × RepoData)) :
    ∀ st : AggState,
      (l.foldl applyOk st).combined.recent_prs =
        st.combined.recent_prs ++
          l.flatMap (fun e => (e.2.recent_prs.take 5).map (tagPR e.1)) := by
  induction l with
  | nil => intro st; simp
  | cons e es ih =>
    intro st
    simp [List.foldl_cons, ih (applyOk st e), applyOk_combined, List.flatMap_cons]

theorem getMultiRepoAnalytics_eq (fetch : String → Option RepoData) (repos : List String) :
    getMultiRepoAnalytics fetch repos =
      finishAgg ((okEntries fetch repos).foldl applyOk initAggState) := by
  unfold getMultiRepoAnalytics
  rw [foldl_processRepo_eq]

theorem finishAgg_counts (st : AggState) :
    (finishAgg st).total_prs = st.combined.total_prs ∧
      (finishAgg st).open_prs = st.combined.open_prs ∧
      (finishAgg st).closed_prs = st.combined.closed_prs ∧
      (finishAgg st).merged_prs = st.combined.merged_prs ∧
      (finishAgg st).prs_by_author = st.combined.prs_by_author ∧
      (finishAgg st).prs_by_day = st.combined.prs_by_day ∧
      (finishAgg st).repositories = st.combined.repositories := by
  by_cases h : 0 < st.total_prs_for_avg <;> simp [finishAgg, h]

theorem finishAgg_recent (st : AggState) :
    (finishAgg st).recent_prs =
      (List.insertionSort prLater st.combined.recent_prs).take 20 := by
  by_cases h : 0 < st.total_prs_for_avg <;> simp [finishAgg, h]

theorem finishAgg_averages (st : AggState) :
    (finishAgg st).average_additions =
        (if 0 < st.total_prs_for_avg then
          st.total_additions / (st.total_prs_for_avg : ℚ)
        else st.combined.average_additions) ∧
      (finishAgg st).average_deletions =
        (if 0 < st.total_prs_for_avg then
          st.total_deletions / (st.total_prs_for_avg : ℚ)
        else st.combined.average_deletions) ∧
      (finishAgg st).average_commits =
        (if 0 < st.total_prs_for_avg then
          st.total_commits / (st.total_prs_for_avg : ℚ)
        else st.combined.average_commits) ∧
      (finishAgg st).average_changed_files =
        (if 0 < st.total_prs_for_avg then
          st.total_changed_files / (st.total_prs_for_avg : ℚ)
        else st.combined.average_changed_files) := by
  by_cases h : 0 < st.total_prs_for_avg <;> simp [finishAgg, h]

theorem totalWeight_contrib_pos (l : List (String × RepoData)) :
    0 < totalWeight (contribOf l) ↔ contribOf l ≠ [] := by
  cases h : contribOf l with
  | nil => simp [totalWeight, h]
  | cons d ds =>
    have hd : d ∈ contribOf l := by rw [h]; exact List.mem_cons_self d ds
    have : 0 < d.total_prs := by
      have := List.of_mem_filter hd
      simpa using this
    simp only [totalWeight, h, List.map_cons, List.sum_cons]
    constructor
    · intro _ hcon
      exact List.cons_ne_nil d ds hcon
    · intro _
      omega

/-! ## C1: weighted combined averages -/

/-- C1.  For every repository list, each of the four combined averages
returned by `get_multi_repo_analytics` equals the weighted mean
`sum(repo.average_x * repo.total_prs) / sum(repo.total_prs)` over the
successfully fetched repositories with `total_prs > 0`, and is `0` when no
such repository exists (repositories with `total_prs == 0` contribute
nothing, regardless of their own average values). -/
theorem c1_weighted_averages (fetch : String → Option RepoData) (repos : List String) :
    ((getMultiRepoAnalytics fetch repos).average_additions =
        if contributingData fetch repos = [] then 0
        else
          weightedSum (fun d => d.average_additions) (contributingData fetch repos) /
            (totalWeight (contributingData fetch repos) : ℚ)) ∧
      ((getMultiRepoAnalytics fetch repos).average_deletions =
        if contributingData fetch repos = [] then 0
        else
          weightedSum (fun d => d.average_deletions) (contributingData fetch repos) /
            (totalWeight (contributingData fetch repos) : ℚ)) ∧
      ((getMultiRepoAnalytics fetch repos).average_commits =
        if contributingData fetch repos = [] then 0
        else
          weightedSum (fun d => d.average_commits) (contributingData fetch repos) /
            (totalWeight (contributingData fetch repos) : ℚ)) ∧
      ((getMultiRepoAnalytics fetch repos).average_changed_files =
        if contributingData fetch repos = [] then 0
        else
          weightedSum (fun d => d.average_changed_files) (contributingData fetch repos) /
            (totalWeight (contributingData fetch repos) : ℚ)) := by
  have hfold := foldl_processRepo_eq fetch repos initAggState
  obtain ⟨a1, a2, a3, a4, a5⟩ := foldl_applyOk_acc (okEntries fetch repos) initAggState
  obtain ⟨v1, v2, v3, v4⟩ := foldl_applyOk_avg_fields (okEntries fetch repos) initAggState
  have hta : ((okEntries fetch repos).foldl applyOk initAggState).total_additions =
      weightedSum (fun d => d.average_additions) (contributingData fetch repos) := by
    rw [a1]; simp [initAggState, contributingData]
  have htd : ((okEntries fetch repos).foldl applyOk initAggState).total_deletions =
      weightedSum (fun d => d.average_deletions) (contributingData fetch repos) := by
    rw [a2]; simp [initAggState, contributingData]
  have htc : ((okEntries fetch repos).foldl applyOk initAggState).total_commits =
      weightedSum (fun d => d.average_commits) (contributingData fetch repos) := by
    rw [a3]; simp [initAggState, contributingData]
  have htf : ((okEntries fetch repos).foldl applyOk initAggState).total_changed_files =
      weightedSum (fun d => d.average_changed_files) (contributingData fetch repos) := by
    rw [a4]; simp [initAggState, contributingData]
  have htpfa : ((okEntries fetch repos).foldl applyOk initAggState).total_prs_for_avg =
      totalWeight (contributingData fetch repos) := by
    rw [a5]; simp [initAggState, contributingData]
  obtain ⟨w1, w2, w3, w4⟩ := finishAgg_averages ((okEntries fetch repos).foldl applyOk initAggState)
  rw [getMultiRepoAnalytics_eq, w1, w2, w3, w4]
  by_cases hc : contributingData fetch repos = []
  · have h0 : ¬ 0 < ((okEntries fetch repos).foldl applyOk initAggState).total_prs_for_avg := by
      rw [htpfa, hc]; simp [totalWeight]
    refine ⟨?_, ?_, ?_, ?_⟩
    · rw [if_neg h0, v1, if_pos hc]; rfl
    · rw [if_neg h0, v2, if_pos hc]; rfl
    · rw [if_neg h0, v3, if_pos hc]; rfl
    · rw [if_neg h0, v4, if_pos hc]; rfl
  · have hpos : 0 < ((okEntries fetch repos).foldl applyOk initAggState).total_prs_for_avg := by
      rw [htpfa]
      exact (totalWeight_contrib_pos (okEntries fetch repos)).mpr hc
    refine ⟨?_, ?_, ?_, ?_⟩
    · rw [if_pos hpos, hta, htpfa, if_neg hc]
    · rw [if_pos hpos, htd, htpfa, if_neg hc]
    · rw [if_pos hpos, htc, htpfa, if_neg hc]
    · rw [if_pos hpos, htf, htpfa, if_neg hc]

/-! ## C2: totals versus the per-repository breakdown -/

/-- The per-repository stats recorded for one fetched payload. -/
def mkStats (d : RepoData) : RepoStats :=
  { total_prs := d.total_prs
    open_prs := d.open_prs
    closed_prs := d.closed_prs
    merged_prs := d.merged_prs }

theorem setStats_append : ∀ (m : List (String × RepoStats)) (k : String) (v : RepoStats),
    (∀ kv ∈ m, kv.1 ≠ k) → setStats m k v = m ++ [(k, v)]
  | [], _, _, _ => rfl
  | (k0, v0) :: rest, k, v, h => by
    have hk : k0 ≠ k := h (k0, v0) (List.mem_cons_self _ _)
    have hb : (k0 == k) = false := beq_eq_false_iff_ne.mpr hk
    have ih := setStats_append rest k v (fun kv hkv => h kv (List.mem_cons_of_mem _ hkv))
    simp [setStats, hb, ih]

theorem foldl_applyOk_repositories :
    ∀ (l : List (String × RepoData)) (st : AggState),
      (l.map Prod.fst).Nodup →
      (∀ e ∈ l, ∀ kv ∈ st.combined.repositories, kv.1 ≠ e.1) →
      (l.foldl applyOk st).combined.repositories =
        st.combined.repositories ++ l.map (fun e => (e.1, mkStats e.2))
  | [], st, _, _ => by simp
  | e :: es, st, hnd, hdisj => by
    have hset : setStats st.combined.repositories e.1 (mkStats e.2) =
        st.combined.repositories ++ [(e.1, mkStats e.2)] :=
      setStats_append _ _ _ (fun kv hkv => hdisj e (List.mem_cons_self _ _) kv hkv)
    have hrepos : (applyOk st e).combined.repositories =
        st.combined.repositories ++ [(e.1, mkStats e.2)] := by
      rw [applyOk_combined]
      exact hset
    have hnd2 : (e.1 :: es.map Prod.fst).Nodup := by
      rw [List.map_cons] at hnd
      exact hnd
    have hnd' : (es.map Prod.fst).Nodup := hnd2.of_cons
    have hhead : e.1 ∉ es.map Prod.fst := (List.nodup_cons.mp hnd2).1
    have hdisj' : ∀ e' ∈ es, ∀ kv ∈ (applyOk st e).combined.repositories, kv.1 ≠ e'.1 := by
      intro e' he' kv hkv
      rw [hrepos] at hkv
      rcases List.mem_append.mp hkv with hin | hin
      · exact hdisj e' (List.mem_cons_of_mem _ he') kv hin
      · have : kv = (e.1, mkStats e.2) := by simpa using hin
        rw [this]
        intro hcon
        apply hhead
        rw [hcon]
        exact List.mem_map_of_mem Prod.fst he'
    have ih := foldl_applyOk_repositories es (applyOk st e) hnd' hdisj'
    calc (List.foldl applyOk st (e :: es)).combined.repositories
        = (List.foldl applyOk (applyOk st e) es).combined.repositories := by
          rw [List.foldl_cons]
      _ = (applyOk st e).combined.repositories ++ es.map (fun e => (e.1, mkStats e.2)) := ih
      _ = st.combined.repositories ++ (e :: es).map (fun e => (e.1, mkStats e.2)) := by
          rw [hrepos, List.map_cons, List.append_assoc, List.singleton_append]

/-- The keys of the contributing entries form a sublist of the input list. -/
theorem okEntries_fst_sublist (fetch : String → Option RepoData) :
    ∀ repos : List String, ((okEntries fetch repos).map Prod.fst).Sublist repos := by
  intro repos
  induction repos with
  | nil => simp [okEntries]
  | cons r rs ih =>
    by_cases hs : (pySplit r "/").length = 2
    · cases hf : fetch r with
      | none =>
        have h2 : okEntries fetch (r :: rs) = okEntries fetch rs := by
          simp [okEntries, List.filterMap_cons, hs, hf]
        rw [h2]
        exact ih.cons r
      | some d =>
        have h2 : okEntries fetch (r :: rs) = (r, d) :: okEntries fetch rs := by
          simp [okEntries, List.filterMap_cons, hs, hf]
        rw [h2, List.map_cons]
        exact ih.cons₂ r
    · have h2 : okEntries fetch (r :: rs) = okEntries fetch rs := by
        simp [okEntries, List.filterMap_cons, hs]
      rw [h2]
      exact ih.cons r

/-- The breakdown recorded by a run is exactly the contributing entries. -/
theorem getMulti_repositories (fetch : String → Option RepoData) (repos : List String)
    (hnd : repos.Nodup) :
    (getMultiRepoAnalytics fetch repos).repositories =
      (okEntries fetch repos).map (fun e => (e.1, mkStats e.2)) := by
  have hkeys : ((okEntries fetch repos).map Prod.fst).Nodup :=
    hnd.sublist (okEntries_fst_sublist fetch repos)
  rw [getMultiRepoAnalytics_eq, (finishAgg_counts _).2.2.2.2.2.2]
  rw [foldl_applyOk_repositories _ _ hkeys
    (by intro e _ kv hkv; simp [initAggState, initCombined] at hkv)]
  simp [initAggState, initCombined]

/-- A sample payload whose only nonzero field is `total_prs`. -/
def ezData (n : Nat) : RepoData :=
  { total_prs := n
    open_prs := 0
    closed_prs := 0
    merged_prs := 0
    average_additions := 0
    average_deletions := 0
    average_commits := 0
    average_changed_files := 0
    prs_by_author := []
    prs_by_day := []
    recent_prs := [] }

/-- A fetch oracle that succeeds only on `a/b`. -/
def dupFetch : String → Option RepoData :=
  fun r => if r == "a/b" then some (ezData 3) else none

/-- C2 (counterexample).  With the duplicated repository list
`["a/b", "a/b"]` and a fetch that reports 3 PRs for `a/b`, the combined
`total_prs` is 6 while the `repositories` breakdown stores a single entry
summing to 3: a combined total need not equal the sum of the stored
per-repository values, so the claim fails as stated for arbitrary
repository lists. -/
theorem c2_counterexample :
    (getMultiRepoAnalytics dupFetch ["a/b", "a/b"]).total_prs = 6 ∧
      statsSum (fun s => s.total_prs)
        ((getMultiRepoAnalytics dupFetch ["a/b", "a/b"]).repositories) = 3 ∧
      ¬ ((getMultiRepoAnalytics dupFetch ["a/b", "a/b"]).total_prs =
        statsSum (fun s => s.total_prs)
          ((getMultiRepoAnalytics dupFetch ["a/b", "a/b"]).repositories)) := by
  refine ⟨by decide, by decide, by decide⟩

/-- C2 (amended).  For every repository list without duplicate entries,
each combined integer count equals the sum of the corresponding values in
the per-repository breakdown, and the breakdown holds exactly the entries
that parsed and fetched successfully (in input order): a failing repository
is excluded from the totals and from the breakdown without aborting the
aggregation of the remaining repositories. -/
theorem c2_totals_match_breakdown (fetch : String → Option RepoData)
    (repos : List String) (hnd : repos.Nodup) :
    (getMultiRepoAnalytics fetch repos).total_prs =
        statsSum (fun s => s.total_prs) ((getMultiRepoAnalytics fetch repos).repositories) ∧
      (getMultiRepoAnalytics fetch repos).open_prs =
        statsSum (fun s => s.open_prs) ((getMultiRepoAnalytics fetch repos).repositories) ∧
      (getMultiRepoAnalytics fetch repos).closed_prs =
        statsSum (fun s => s.closed_prs) ((getMultiRepoAnalytics fetch repos).repositories) ∧
      (getMultiRepoAnalytics fetch repos).merged_prs =
        statsSum (fun s => s.merged_prs) ((getMultiRepoAnalytics fetch repos).repositories) ∧
      (getMultiRepoAnalytics fetch repos).repositories.map Prod.fst =
        (okEntries fetch repos).map Prod.fst := by
  obtain ⟨c1, c2, c3, c4, _, _, _⟩ :=
    finishAgg_counts ((okEntries fetch repos).foldl applyOk initAggState)
  obtain ⟨t1, t2, t3, t4⟩ := foldl_applyOk_counts (okEntries fetch repos) initAggState
  have hrep := getMulti_repositories fetch repos hnd
  have hsum : ∀ f : RepoStats → ℕ,
      statsSum f ((getMultiRepoAnalytics fetch repos).repositories) =
        ((okEntries fetch repos).map (fun e => f (mkStats e.2))).sum := by
    intro f
    rw [hrep]
    simp [statsSum, List.map_map, Function.comp_def]
  refine ⟨?_, ?_, ?_, ?_, ?_⟩
  · rw [hsum, getMultiRepoAnalytics_eq, c1, t1]
    simp [initAggState, initCombined, mkStats]
  · rw [hsum, getMultiRepoAnalytics_eq, c2, t2]
    simp [initAggState, initCombined, mkStats]
  · rw [hsum, getMultiRepoAnalytics_eq, c3, t3]
    simp [initAggState, initCombined, mkStats]
  · rw [hsum, getMultiRepoAnalytics_eq, c4, t4]
    simp [initAggState, initCombined, mkStats]
  · rw [hrep]
    simp [List.map_map, Function.comp]

/-- A fetch oracle that succeeds only on `w/x`. -/
def wFetch2 : String → Option RepoData :=
  fun r => if r == "w/x" then some (ezData 2) else none

/-- Instantiation of the amended C2 on the concrete list `["w/x", "bad"]`
(in which `bad` is malformed, so only `w/x` contributes). -/
theorem c2_witness :
    (getMultiRepoAnalytics wFetch2 ["w/x", "bad"]).total_prs =
      statsSum (fun s => s.total_prs)
        ((getMultiRepoAnalytics wFetch2 ["w/x", "bad"]).repositories) :=
  (c2_totals_match_breakdown wFetch2 ["w/x", "bad"] (by decide)).1

/-! ## C3: the combined `recent_prs` list -/

theorem getMulti_recent (fetch : String → Option RepoData) (repos : List String) :
    (getMultiRepoAnalytics fetch repos).recent_prs =
      (List.insertionSort prLater (recentPool fetch repos)).take 20 := by
  rw [getMultiRepoAnalytics_eq, finishAgg_recent, foldl_applyOk_recent]
  simp [initAggState, initCombined, recentPool]

/-- C3.  For every repository list, the combined `recent_prs` list has
length at most 20, is sorted by `created_at` descending, and is drawn from
the pool holding at most the first five recent PRs of each successfully
fetched repository, each tagged with its origin repository; moreover it is
the 20-element prefix of a stable descending sort of that pool (any
subsequence of the pool already in descending order — in particular any
run of ties in input order — survives as a subsequence of the sort). -/
theorem c3_recent_prs (fetch : String → Option RepoData) (repos : List String) :
    (getMultiRepoAnalytics fetch repos).recent_prs.length ≤ 20 ∧
      List.Sorted prLater (getMultiRepoAnalytics fetch repos).recent_prs ∧
      (getMultiRepoAnalytics fetch repos).recent_prs.Subperm (recentPool fetch repos) ∧
      ∃ full : List TaggedPR,
        full.Perm (recentPool fetch repos) ∧
          List.Sorted prLater full ∧
          (∀ c : List TaggedPR, c.Pairwise prLater →
            c.Sublist (recentPool fetch repos) → c.Sublist full) ∧
          (getMultiRepoAnalytics fetch repos).recent_prs = full.take 20 := by
  have hr := getMulti_recent fetch repos
  have hsorted : List.Sorted prLater (List.insertionSort prLater (recentPool fetch repos)) :=
    List.sorted_insertionSort prLater (recentPool fetch repos)
  have hperm : (List.insertionSort prLater (recentPool fetch repos)).Perm
      (recentPool fetch repos) :=
    List.perm_insertionSort prLater (recentPool fetch repos)
  refine ⟨?_, ?_, ?_,
    List.insertionSort prLater (recentPool fetch repos), hperm, hsorted, ?_, hr⟩
  · rw [hr, List.length_take]
    exact min_le_left 20 _
  · rw [hr]
    exact List.Pairwise.sublist (List.take_sublist 20 _) hsorted
  · rw [hr]
    exact ((List.take_sublist 20 _).subperm).trans hperm.subperm
  · intro c hc hcs
    exact List.sublist_insertionSort hc hcs

/-! ## C5: validation of repository identifiers -/

/-- A fetch oracle that succeeds (with 7 PRs) only on the string `a/`,
whose second `/`-segment is empty. -/
def c5Fetch : String → Option RepoData :=
  fun r => if r == "a/" then some (ezData 7) else none

/-- C5 (counterexample).  The entry `"a/"` splits into the two
segments `["a", ""]`, the second of which is empty, yet the aggregator
treats it as a valid repository identifier: it is fetched and its 7 PRs
enter the combined total (compare the empty repository list).  Validity
therefore does not require the two segments to be non-empty. -/
theorem c5_counterexample :
    pySplit "a/" "/" = ["a", ""] ∧
      (getMultiRepoAnalytics c5Fetch ["a/"]).total_prs = 7 ∧
      (getMultiRepoAnalytics c5Fetch []).total_prs = 0 := by
  refine ⟨by decide, by decide, by decide⟩

/-- C5 (amended).  An entry is treated as a valid repository
identifier exactly when it splits on `/` into exactly two segments
(empty segments are accepted); every entry that does not is skipped
without affecting the aggregation of the remaining entries. -/
theorem c5_skips_malformed (fetch : String → Option RepoData)
    (pre post : List String) (r : String)
    (h : (pySplit r "/").length ≠ 2) :
    getMultiRepoAnalytics fetch (pre ++ r :: post) =
      getMultiRepoAnalytics fetch (pre ++ post) := by
  have hskip : ∀ st, processRepo fetch st r = st := by
    intro st
    simp [processRepo, h]
  unfold getMultiRepoAnalytics
  rw [List.foldl_append, List.foldl_cons, hskip, ← List.foldl_append]

/-- Instantiation of the amended C5: the malformed entry
`"not-a-repo"` is skipped and the rest of the aggregation is unchanged. -/
theorem c5_witness :
    getMultiRepoAnalytics wFetch2 (["w/x"] ++ "not-a-repo" :: []) =
      getMultiRepoAnalytics wFetch2 (["w/x"] ++ []) :=
  c5_skips_malformed wFetch2 ["w/x"] [] "not-a-repo" (by decide)

/-! ## C9: the aggregator's status field -/

/-- C9 (counterexample).  With a fetch oracle that fails on every
repository ("could not run at all"), the aggregator returns *exactly* the
same value — the same `'success'` status and the same zero data — as for
the empty repository list ("ran successfully with zero data"): no field of
the return value, and in particular not the status field, lets a caller
distinguish the two cases. -/
theorem c9_counterexample :
    getMultiRepoResult (fun _ => none) ["a/b"] = getMultiRepoResult (fun _ => none) [] ∧
      (getMultiRepoResult (fun _ => none) ["a/b"]).status = "success" := by
  refine ⟨by decide, rfl⟩

/-- C9 (amended).  The aggregator's return value does carry a status
field separate from the metrics, but its value is the constant
`'success'` for every fetch oracle and every repository list — including
when every fetch fails — so it cannot distinguish "ran with zero data"
from "could not run at all". -/
theorem c9_status_constant (fetch : String → Option RepoData) (repos : List String) :
    (getMultiRepoResult fetch repos).status = "success" := rfl

/-! ## C10: the `GitHub/` gate of `_get_resolved_repositories` -/

theorem resolveEntry_full_path (hasCreds : Bool) (api : String → Option AzRepoData)
    (breakdown : List (String × Nat)) (p : String) :
    (resolveEntry hasCreds api breakdown p).full_path = p := by
  simp only [resolveEntry]
  split <;> rfl

/-- C10.  `_get_resolved_repositories` returns exactly one resolved
entry per input path that starts with the literal prefix `GitHub/`, in
input order, and silently omits every other input path: the `full_path`
fields of the output are precisely the `GitHub/`-prefixed inputs. -/
theorem c10_github_prefix_filter (hasCreds : Bool) (api : String → Option AzRepoData)
    (paths : List String) (breakdown : List (String × Nat)) :
    (getResolvedRepositories hasCreds api paths breakdown).map (fun e => e.full_path) =
      paths.filter (fun p => strStartsWith p "GitHub/") := by
  induction paths with
  | nil => rfl
  | cons p ps ih =>
    by_cases hp : strStartsWith p "GitHub/" = true
    · simpa [getResolvedRepositories, List.filterMap_cons, List.filter_cons, hp,
        resolveEntry_full_path] using ih
    · simpa [getResolvedRepositories, List.filterMap_cons, List.filter_cons, hp] using ih

/-! ## C8: fallback behaviour of repository resolution -/

/-- An Azure DevOps repository API oracle that always fails
(non-200 response or exception). -/
def noApi : String → Option AzRepoData :=
  fun _ => none

/-- A nonempty string followed by anything is nonempty. -/
theorem str_append_ne_empty (s t : String) (h : s.data ≠ []) : s ++ t ≠ "" := by
  intro hcon
  apply h
  have hd : (s ++ t).data = [] := by rw [hcon]
  rw [String.data_append] at hd
  exact (List.append_eq_nil.mp hd).1

/-- C8 (counterexample).  For the internal id `deadbeef-1111` — absent
from the static mapping, with the authoritative lookup failing but
credentials present — resolution does *not* produce the
`owner/repo-…`/`resolved=false` placeholder: the pattern-based guess of
`_try_github_resolution` yields `tr/repo-deadbeef` and the entry is marked
`resolved=true`. -/
theorem c8_counterexample :
    (getResolvedRepositories true noApi ["GitHub/deadbeef-1111"] []).map
      (fun e => (e.github_repo, e.resolved)) = [("tr/repo-deadbeef", true)] := by
  decide

/-- C8 (amended).  For every internal repository id failing the
authoritative lookup and matching no entry of the static mapping (neither
exactly nor as a prefix of a known full id), repository resolution still
returns exactly one `ResolvedRepository` — never none and never raising —
with a non-empty synthesized `github_repo`; but when credentials are
present the entry is the pattern-based guess `tr/repo-<first 8 chars>`
marked `resolved=true`, and the placeholder `owner/repo-<first 8 chars>`
with `resolved=false` arises only when name resolution returns nothing at
all (no credentials). -/
theorem c8_resolution (hasCreds : Bool) (api : String → Option AzRepoData)
    (rid p : String) (bd : List (String × Nat))
    (hpfx : strStartsWith p "GitHub/" = true)
    (hrep : pyReplace p "GitHub/" "" = rid)
    (hapi : api rid = none)
    (hlk : knownRepos.lookup rid = none)
    (hfind : knownRepos.find? (fun q => strStartsWith q.1 rid) = none) :
    ∃ e : ResolvedRepository,
      getResolvedRepositories hasCreds api [p] bd = [e] ∧
        e.github_repo ≠ "" ∧
        (hasCreds = true →
          e.github_repo = "tr/repo-" ++ takeChars 8 rid ∧ e.resolved = true) ∧
        (hasCreds = false →
          e.github_repo = "owner/repo-" ++ takeChars 8 rid ∧ e.resolved = false) := by
  have hentry : getResolvedRepositories hasCreds api [p] bd =
      [resolveEntry hasCreds api bd p] := by
    simp [getResolvedRepositories, hpfx]
  cases hasCreds with
  | false =>
    have hres : resolveRepositoryName false api rid = none := rfl
    have hval1 : (resolveEntry false api bd p).github_repo =
        "owner/repo-" ++ takeChars 8 rid := by
      simp [resolveEntry, hrep, hres]
    have hval2 : (resolveEntry false api bd p).resolved = false := by
      simp [resolveEntry, hrep, hres]
    refine ⟨resolveEntry false api bd p, hentry, ?_, ?_, ?_⟩
    · rw [hval1]
      exact str_append_ne_empty "owner/repo-" _ (by decide)
    · intro hcon
      cases hcon
    · intro _
      exact ⟨hval1, hval2⟩
  | true =>
    have htry : tryGithubResolution rid =
        { github_repo := "tr/repo-" ++ takeChars 8 rid
          repo_name := "repo-" ++ takeChars 8 rid
          owner := "tr"
          repo := "repo-" ++ takeChars 8 rid
          remote_url := "https://github.com/tr/repo-" ++ takeChars 8 rid } := by
      simp [tryGithubResolution, hlk, hfind]
    have hres : resolveRepositoryName true api rid = some (tryGithubResolution rid) := by
      simp [resolveRepositoryName, hapi]
    have hval1 : (resolveEntry true api bd p).github_repo =
        "tr/repo-" ++ takeChars 8 rid := by
      simp [resolveEntry, hrep, hres, htry]
    have hval2 : (resolveEntry true api bd p).resolved = true := by
      simp [resolveEntry, hrep, hres]
    refine ⟨resolveEntry true api bd p, hentry, ?_, ?_, ?_⟩
    · rw [hval1]
      exact str_append_ne_empty "tr/repo-" _ (by decide)
    · intro _
      exact ⟨hval1, hval2⟩
    · intro hcon
      cases hcon

/-- Instantiation of the amended C8 on the concrete unresolvable id
`cafe0123-aaaa` with credentials present. -/
theorem c8_witness :
    ∃ e : ResolvedRepository,
      getResolvedRepositories true noApi ["GitHub/cafe0123-aaaa"] [] = [e] ∧
        e.github_repo ≠ "" ∧
        (true = true →
          e.github_repo = "tr/repo-" ++ takeChars 8 "cafe0123-aaaa" ∧ e.resolved = true) ∧
        (true = false →
          e.github_repo = "owner/repo-" ++ takeChars 8 "cafe0123-aaaa" ∧
            e.resolved = false) :=
  c8_resolution true noApi "cafe0123-aaaa" "GitHub/cafe0123-aaaa" []
    (by decide) (by decide) rfl (by decide) (by decide)

/-! ## C6: commit links and the `commit-` reference-id prefix -/

/-- A URL starting with the commit scheme cannot also start with the
pull-request scheme (the two literals differ at index 16). -/
theorem commit_scheme_not_pr_scheme (l : List Char)
    (h : "vstfs:///GitHub/Commit/".data.isPrefixOf l = true) :
    ¬ "vstfs:///GitHub/PullRequest/".data.isPrefixOf l = true := by
  intro hp
  rw [List.isPrefixOf_iff_prefix] at h hp
  obtain ⟨t1, ht1⟩ := h
  obtain ⟨t2, ht2⟩ := hp
  have h17 : ("vstfs:///GitHub/Commit/".data ++ t1).take 17 =
      ("vstfs:///GitHub/PullRequest/".data ++ t2).take 17 := by
    rw [ht1, ht2]
  rw [List.take_append_of_le_length (by decide),
    List.take_append_of_le_length (by decide)] at h17
  exact absurd h17 (by decide)

/-- A string `s ++ t` starts with `s`. -/
theorem strStartsWith_append (s t : String) : strStartsWith (s ++ t) s = true := by
  unfold strStartsWith
  rw [String.data_append, List.isPrefixOf_iff_prefix]
  exact List.prefix_append _ _

theorem gitPrBranch_commit_id (url : String) : (gitPrBranch url).commit_id = none := by
  simp only [gitPrBranch, defaultRepoInfo]
  split <;> rfl

theorem apiPrBranch_commit_id (url : String) : (apiPrBranch url).commit_id = none := by
  simp only [apiPrBranch, defaultRepoInfo]
  split <;> rfl

/-- C6 (counterexample).  The Azure DevOps PR URL
`…/_git/r/pullrequest/commit-ab12cd34` is classified as a link candidate
and extracted as a *non-commit* record (`commit_id` unset) whose
reference id nevertheless starts with the literal `commit-`: the
"commit link iff reference id starts with `commit-`" equivalence fails in
the right-to-left direction. -/
theorem c6_counterexample :
    isPrLink "artifactlink"
        "https://dev.azure.com/o/p/_git/r/pullrequest/commit-ab12cd34" = true ∧
      (extractRepoFromPrUrl
          "https://dev.azure.com/o/p/_git/r/pullrequest/commit-ab12cd34").commit_id =
        none ∧
      strStartsWith
        (extractRepoFromPrUrl
            "https://dev.azure.com/o/p/_git/r/pullrequest/commit-ab12cd34").pr_number
        "commit-" = true := by
  refine ⟨by decide, by decide, by decide⟩

/-- C6 (amended).  Every relation URL matching the internal GitHub
commit scheme `vstfs:///GitHub/Commit/{repo-id}%2f{hash}` (i.e. on which
the code's commit pattern succeeds) is extracted with platform `GitHub`,
with `commit_id` set to the matched hash, and with reference id equal to
`commit-` followed by the first 8 characters of the hash; and every
extracted commit record's reference id starts with `commit-` — but the
converse of the final implication does not hold. -/
theorem c6_commit_links (url rid hsh : String)
    (h1 : strStartsWith url "vstfs:///GitHub/Commit/" = true)
    (h2 : vstfsCommitSearch url = some (rid, hsh)) :
    (extractRepoFromPrUrl url).platform = "GitHub" ∧
      (extractRepoFromPrUrl url).commit_id = some hsh ∧
      (extractRepoFromPrUrl url).pr_number = "commit-" ++ takeChars 8 hsh ∧
      ∀ u : String, ((extractRepoFromPrUrl u).commit_id).isSome = true →
        strStartsWith (extractRepoFromPrUrl u).pr_number "commit-" = true := by
  have hnp : ¬ strStartsWith url "vstfs:///GitHub/PullRequest/" = true :=
    commit_scheme_not_pr_scheme url.data h1
  have hext : extractRepoFromPrUrl url =
      { repository := "GitHub-" ++ takeChars 8 rid
        pr_number := "commit-" ++ takeChars 8 hsh
        platform := "GitHub"
        full_repo_path := "GitHub/" ++ rid
        repository_id := some rid
        commit_id := some hsh } := by
    unfold extractRepoFromPrUrl
    rw [if_neg hnp, if_pos h1, h2]
  refine ⟨by rw [hext], by rw [hext], by rw [hext], ?_⟩
  intro u
  unfold extractRepoFromPrUrl
  split
  · split
    · intro hu
      simp at hu
    · intro hu
      simp [defaultRepoInfo] at hu
  · split
    · split
      · intro _
        exact strStartsWith_append "commit-" _
      · intro hu
        simp [defaultRepoInfo] at hu
    · split
      · split
        · intro hu
          simp at hu
        · intro hu
          simp [defaultRepoInfo] at hu
      · split
        · intro hu
          rw [gitPrBranch_commit_id] at hu
          simp at hu
        · split
          · intro hu
            rw [apiPrBranch_commit_id] at hu
            simp at hu
          · intro hu
            simp [defaultRepoInfo] at hu

/-- Instantiation of the amended C6 on a concrete commit URL. -/
theorem c6_witness :
    (extractRepoFromPrUrl
        "vstfs:///GitHub/Commit/206cdeed-ccde-4df1%2fdeadbeef0123").platform =
        "GitHub" ∧
      (extractRepoFromPrUrl
          "vstfs:///GitHub/Commit/206cdeed-ccde-4df1%2fdeadbeef0123").commit_id =
        some "deadbeef0123" ∧
      (extractRepoFromPrUrl
          "vstfs:///GitHub/Commit/206cdeed-ccde-4df1%2fdeadbeef0123").pr_number =
        "commit-" ++ takeChars 8 "deadbeef0123" ∧
      ∀ u : String, ((extractRepoFromPrUrl u).commit_id).isSome = true →
        strStartsWith (extractRepoFromPrUrl u).pr_number "commit-" = true :=
  c6_commit_links "vstfs:///GitHub/Commit/206cdeed-ccde-4df1%2fdeadbeef0123"
    "206cdeed-ccde-4df1" "deadbeef0123" (by decide) (by decide)

/-! ## C7: graceful degradation of `_extract_repo_from_pr_url` -/

/-- Whether any of the five URL-shape-specific sub-patterns of
`_extract_repo_from_pr_url` applies: for each branch, its guard together
with the success of its inner pattern (for the two split-based branches,
the inner `len(parts) > 1` test). -/
def matchesAnySubpattern (url : String) : Bool :=
  (strStartsWith url "vstfs:///GitHub/PullRequest/" && (vstfsPRSearch url).isSome) ||
  (strStartsWith url "vstfs:///GitHub/Commit/" && (vstfsCommitSearch url).isSome) ||
  (strContains (lowerStr url) "github.com" && (githubPullSearch url).isSome) ||
  (strContains url "_git/" && strContains url "pullrequest/" &&
    decide ((pySplit url "/_git/").length > 1)) ||
  (strContains url "repositories/" && strContains url "pullRequests/" &&
    decide ((pySplit url "/repositories/").length > 1))

theorem gitPrBranch_platform (url : String) :
    (gitPrBranch url).platform = "Azure DevOps" ∨ (gitPrBranch url).platform = "unknown" := by
  simp only [gitPrBranch, defaultRepoInfo]
  split
  · left
    rfl
  · right
    rfl

theorem apiPrBranch_platform (url : String) :
    (apiPrBranch url).platform = "Azure DevOps" ∨ (apiPrBranch url).platform = "unknown" := by
  simp only [apiPrBranch, defaultRepoInfo]
  split
  · left
    rfl
  · right
    rfl

/-- C7.  If none of the five URL-shape-specific sub-patterns matches a
URL, `_extract_repo_from_pr_url` returns the fallback record — repository
and `full_repo_path` equal to the raw URL, reference id `"unknown"`,
platform unknown — and for *every* input URL it returns a well-formed
record (one of the three platforms) rather than raising. -/
theorem c7_fallback (url : String) (h : matchesAnySubpattern url = false) :
    extractRepoFromPrUrl url = defaultRepoInfo url ∧
      ∀ u : String,
        (extractRepoFromPrUrl u).platform = "GitHub" ∨
          (extractRepoFromPrUrl u).platform = "Azure DevOps" ∨
          (extractRepoFromPrUrl u).platform = "unknown" := by
  constructor
  · unfold extractRepoFromPrUrl
    by_cases g1 : strStartsWith url "vstfs:///GitHub/PullRequest/" = true
    · have hv : vstfsPRSearch url = none := by
        cases hv : vstfsPRSearch url with
        | none => rfl
        | some v =>
          have hcon := h
          simp [matchesAnySubpattern, g1, hv] at hcon
      rw [if_pos g1, hv]
    · rw [if_neg g1]
      by_cases g2 : strStartsWith url "vstfs:///GitHub/Commit/" = true
      · have hv : vstfsCommitSearch url = none := by
          cases hv : vstfsCommitSearch url with
          | none => rfl
          | some v =>
            have hcon := h
            simp [matchesAnySubpattern, g2, hv] at hcon
        rw [if_pos g2, hv]
      · rw [if_neg g2]
        by_cases g3 : strContains (lowerStr url) "github.com" = true
        · have hv : githubPullSearch url = none := by
            cases hv : githubPullSearch url with
            | none => rfl
            | some v =>
              have hcon := h
              simp [matchesAnySubpattern, g3, hv] at hcon
          rw [if_pos g3, hv]
        · rw [if_neg g3]
          by_cases g4 : (strContains url "_git/" && strContains url "pullrequest/") = true
          · have hv : ¬ (pySplit url "/_git/").length > 1 := by
              intro hcon1
              rcases Bool.and_eq_true .. |>.mp g4 with ⟨ga, gb⟩
              simp [matchesAnySubpattern, ga, gb, hcon1] at h
            rw [if_pos g4]
            unfold gitPrBranch
            rw [if_neg hv]
          · rw [if_neg g4]
            by_cases g5 : (strContains url "repositories/" && strContains url "pullRequests/") = true
            · have hv : ¬ (pySplit url "/repositories/").length > 1 := by
                intro hcon1
                rcases Bool.and_eq_true .. |>.mp g5 with ⟨ga, gb⟩
                simp [matchesAnySubpattern, ga, gb, hcon1] at h
              rw [if_pos g5]
              unfold apiPrBranch
              rw [if_neg hv]
            · rw [if_neg g5]
  · intro u
    unfold extractRepoFromPrUrl
    split
    · split
      · left
        rfl
      · right
        right
        rfl
    · split
      · split
        · left
          rfl
        · right
          right
          rfl
      · split
        · split
          · left
            rfl
          · right
            right
            rfl
        · split
          · right
            exact gitPrBranch_platform u
          · split
            · right
              exact apiPrBranch_platform u
            · right
              right
              rfl

/-- Instantiation of C7 at a URL matched by no sub-pattern. -/
theorem c7_witness :
    extractRepoFromPrUrl "https://example.com/some/hyperlink" =
      defaultRepoInfo "https://example.com/some/hyperlink" :=
  (c7_fallback "https://example.com/some/hyperlink" (by decide)).1

/-! ## C4: the repository summary table -/

theorem roundHalfEvenTenths_bound (q : ℚ) :
    |((roundHalfEvenTenths q : ℤ) : ℚ) - 10 * q| ≤ 1 / 2 := by
  have hf0 : ((⌊10 * q⌋ : ℤ) : ℚ) ≤ 10 * q := Int.floor_le _
  have hf1 : 10 * q < ((⌊10 * q⌋ : ℤ) : ℚ) + 1 := Int.lt_floor_add_one _
  simp only [roundHalfEvenTenths]
  split_ifs with h1 h2 h3 <;> rw [abs_le] <;> constructor <;> push_cast <;> linarith

theorem roundHalfEvenTenths_nonneg (q : ℚ) (hq : 0 ≤ q) : 0 ≤ roundHalfEvenTenths q := by
  have hf : 0 ≤ ⌊10 * q⌋ := Int.floor_nonneg.mpr (by positivity)
  simp only [roundHalfEvenTenths]
  split_ifs <;> omega

/-- The one-decimal formatter produces `"<digits>.<digit>"` whose value is
within `1/20` of the formatted quantity. -/
theorem fmtTenths_shape (q : ℚ) (hq : 0 ≤ q) :
    ∃ k d : ℕ, d < 10 ∧ fmtTenths q = toString k ++ "." ++ toString d ∧
      |((k * 10 + d : ℕ) : ℚ) / 10 - q| ≤ 1 / 20 := by
  have hnn : 0 ≤ roundHalfEvenTenths q := roundHalfEvenTenths_nonneg q hq
  have hcast : (((roundHalfEvenTenths q).toNat : ℤ)) = roundHalfEvenTenths q :=
    Int.toNat_of_nonneg hnn
  refine ⟨(roundHalfEvenTenths q).toNat / 10, (roundHalfEvenTenths q).toNat % 10,
    Nat.mod_lt _ (by norm_num), rfl, ?_⟩
  have hkd : (((roundHalfEvenTenths q).toNat / 10 * 10 +
      (roundHalfEvenTenths q).toNat % 10 : ℕ) : ℚ) =
      (((roundHalfEvenTenths q).toNat : ℕ) : ℚ) := by
    norm_cast
    omega
  rw [hkd]
  have heq : (((roundHalfEvenTenths q).toNat : ℕ) : ℚ) / 10 - q =
      ((((roundHalfEvenTenths q).toNat : ℕ) : ℚ) - 10 * q) / 10 := by
    ring
  rw [heq, abs_div, abs_of_pos (show (0 : ℚ) < 10 by norm_num)]
  have hb : |(((roundHalfEvenTenths q).toNat : ℕ) : ℚ) - 10 * q| ≤ 1 / 2 := by
    have hbb := roundHalfEvenTenths_bound q
    rw [← hcast] at hbb
    push_cast at hbb ⊢
    exact hbb
  linarith

/-- The merge-rate cell for a positive PR total:
one decimal place, trailing `%`, value within rounding error of the
true percentage. -/
theorem mergeRateStr_shape (merged total : Nat) (h : 0 < total) :
    ∃ k d : ℕ, d < 10 ∧
      mergeRateStr merged total = toString k ++ "." ++ toString d ++ "%" ∧
      |((k * 10 + d : ℕ) : ℚ) / 10 - (merged : ℚ) / total * 100| ≤ 1 / 20 := by
  obtain ⟨k, d, hd, hfmt, hval⟩ :=
    fmtTenths_shape ((merged : ℚ) / total * 100) (by positivity)
  refine ⟨k, d, hd, ?_, hval⟩
  rw [mergeRateStr, if_pos h, hfmt]

/-- The merge-rate cell for a zero PR total is exactly `"0%"`. -/
theorem mergeRateStr_zero (merged : Nat) : mergeRateStr merged 0 = "0%" := rfl

/-- C4.  For every combined data and repository list, the summary
table has one row per input repository, in caller-supplied order, plus one
trailing total row; every merge-rate cell is exactly `"0%"` whenever the
corresponding total PR count is 0 (never a division error), and otherwise
is `merged/total` as a percentage with exactly one decimal digit and a
trailing `%` (its displayed value within rounding distance `1/20` of the
exact percentage). -/
theorem c4_summary_table (data : CombinedData) (repos : List String) :
    (createRepositorySummaryTable data repos).rows.length = repos.length + 1 ∧
      (∀ i, i < repos.length →
        ∃ r row,
          repos[i]? = some r ∧
            (createRepositorySummaryTable data repos).rows[i]? = some row ∧
            row.length = 6 ∧
            row[0]? = some r ∧
            ((lookupStats data.repositories r).total_prs = 0 →
              row[5]? = some "0%") ∧
            (0 < (lookupStats data.repositories r).total_prs →
              ∃ k d : ℕ, d < 10 ∧
                row[5]? = some (toString k ++ "." ++ toString d ++ "%") ∧
                |((k * 10 + d : ℕ) : ℚ) / 10 -
                    ((lookupStats data.repositories r).merged_prs : ℚ) /
                      ((lookupStats data.repositories r).total_prs : ℚ) * 100| ≤ 1 / 20)) ∧
      (∃ trow,
        (createRepositorySummaryTable data repos).rows[repos.length]? = some trow ∧
          trow.length = 6 ∧
          trow[0]? = some "<strong>TOTAL</strong>" ∧
          (data.total_prs = 0 → trow[5]? = some "<strong>0%</strong>") ∧
          (0 < data.total_prs →
            ∃ k d : ℕ, d < 10 ∧
              trow[5]? =
                some ("<strong>" ++ (toString k ++ "." ++ toString d ++ "%") ++ "</strong>") ∧
              |((k * 10 + d : ℕ) : ℚ) / 10 -
                  (data.merged_prs : ℚ) / (data.total_prs : ℚ) * 100| ≤ 1 / 20)) := by
  refine ⟨by simp [createRepositorySummaryTable], ?_, ?_⟩
  · intro i hi
    have hmaplen : i < (repos.map (repoRow data.repositories)).length := by simpa using hi
    have h2 : repos[i]? = some repos[i] := List.getElem?_eq_getElem hi
    have h1 : (createRepositorySummaryTable data repos).rows[i]? =
        some (repoRow data.repositories repos[i]) := by
      simp only [createRepositorySummaryTable]
      rw [List.getElem?_append_left hmaplen, List.getElem?_map, h2]
      rfl
    have hcell : (repoRow data.repositories repos[i])[5]? =
        some (mergeRateStr (lookupStats data.repositories repos[i]).merged_prs
          (lookupStats data.repositories repos[i]).total_prs) := rfl
    refine ⟨repos[i], repoRow data.repositories repos[i], h2, h1, rfl, rfl, ?_, ?_⟩
    · intro hz
      rw [hcell, hz, mergeRateStr_zero]
    · intro hp
      obtain ⟨k, d, hd, hfmt, hval⟩ :=
        mergeRateStr_shape (lookupStats data.repositories repos[i]).merged_prs
          (lookupStats data.repositories repos[i]).total_prs hp
      exact ⟨k, d, hd, by rw [hcell, hfmt], hval⟩
  · have hlen : (repos.map (repoRow data.repositories)).length = repos.length := by simp
    have h3 : (createRepositorySummaryTable data repos).rows[repos.length]? =
        some (totalRow data) := by
      simp only [createRepositorySummaryTable]
      rw [← hlen]
      exact List.getElem?_concat_length _ _
    have hcell : (totalRow data)[5]? =
        some (strong (mergeRateStr data.merged_prs data.total_prs)) := rfl
    refine ⟨totalRow data, h3, rfl, rfl, ?_, ?_⟩
    · intro hz
      rw [hcell, hz, mergeRateStr_zero]
      rfl
    · intro hp
      obtain ⟨k, d, hd, hfmt, hval⟩ := mergeRateStr_shape data.merged_prs data.total_prs hp
      refine ⟨k, d, hd, ?_, hval⟩
      rw [hcell, hfmt]
      rfl

/-! ## Witness instantiations on concrete inputs -/

/-- Instantiation of C1 on a concrete run. -/
theorem c1_witness :
    (getMultiRepoAnalytics dupFetch ["a/b"]).average_additions =
      if contributingData dupFetch ["a/b"] = [] then 0
      else
        weightedSum (fun d => d.average_additions) (contributingData dupFetch ["a/b"]) /
          (totalWeight (contributingData dupFetch ["a/b"]) : ℚ) :=
  (c1_weighted_averages dupFetch ["a/b"]).1

/-- Instantiation of C3 on a concrete run. -/
theorem c3_witness :
    (getMultiRepoAnalytics c5Fetch ["a/b", "c/d"]).recent_prs.length ≤ 20 :=
  (c3_recent_prs c5Fetch ["a/b", "c/d"]).1

/-- Instantiation of C4 on a concrete table. -/
theorem c4_witness :
    (createRepositorySummaryTable initCombined ["o/r"]).rows.length = 1 + 1 :=
  (c4_summary_table initCombined ["o/r"]).1

/-- Instantiation of the amended C9 on a concrete run. -/
theorem c9_witness :
    (getMultiRepoResult dupFetch ["a/b"]).status = "success" :=
  c9_status_constant dupFetch ["a/b"]

/-- Instantiation of C10 on a concrete input list. -/
theorem c10_witness :
    (getResolvedRepositories false noApi ["GitHub/x", "other/y"] []).map
        (fun e => e.full_path) =
      (["GitHub/x", "other/y"].filter (fun p => strStartsWith p "GitHub/")) :=
  c10_github_prefix_filter false noApi ["GitHub/x", "other/y"] []

end AnalyticsDashboard
